import Mathlib

/-!
Verification of the port allocator
(`daemon/networkdriver/portallocator/portallocator.go`).

The Go code is shallowly embedded: Go `int` is modeled as `Int` (the values
involved stay far from the 64-bit boundary, and the program performs no
wrapping arithmetic), the Go maps are modeled as functions into `Option`,
and the two process-wide globals `beginPortRange` / `endPortRange` are
threaded through every operation as explicit parameters `b`, `e`.
-/

namespace PortAllocator

/-- `DefaultPortRangeStart` from the source. -/
def DefaultPortRangeStart : Int := 49153

/-- `DefaultPortRangeEnd` from the source. -/
def DefaultPortRangeEnd : Int := 65535

/-- `portMap`: the set of allocated ports for one (ip, protocol) pair plus the
round-robin cursor `last`. -/
structure PortMap where
  p : Finset Int
  last : Int
deriving DecidableEq

/-- `newPortMap`: empty set, cursor at the current range upper bound. -/
def newPortMap (endPortRange : Int) : PortMap :=
  { p := ∅, last := endPortRange }

/-- `protoMap` is `map[string]*portMap` in Go, but every `protoMap` the program
ever builds comes from `newProtoMap` and has exactly the keys `"tcp"` and
`"udp"`, so it is modeled by its two fields. -/
structure ProtoMap where
  tcp : PortMap
  udp : PortMap
deriving DecidableEq

/-- `newProtoMap`: both protocols populated with fresh empty port maps. -/
def newProtoMap (endPortRange : Int) : ProtoMap :=
  { tcp := newPortMap endPortRange, udp := newPortMap endPortRange }

/-- Go map lookup `protomap[proto]`: a missing key yields the nil `*portMap`,
modeled as `none`. -/
def ProtoMap.get (m : ProtoMap) (proto : String) : Option PortMap :=
  if proto = "tcp" then some m.tcp else if proto = "udp" then some m.udp else none

/-- Writing through the `*portMap` pointer stored under `proto` (a no-op for a
key that is not present; that case is never reached by the embedded code). -/
def ProtoMap.set (m : ProtoMap) (proto : String) (pm : PortMap) : ProtoMap :=
  if proto = "tcp" then { m with tcp := pm }
  else if proto = "udp" then { m with udp := pm } else m

/-- The port map the request path works on: `mapping := protomap[proto]`,
for a protocol already validated to be `"tcp"` or `"udp"`. -/
def pmOfProto (m : ProtoMap) (proto : String) : PortMap :=
  if proto = "tcp" then m.tcp else m.udp

/-- `ipMapping`: the `globalMap` table, `map[string]protoMap` in Go. -/
def IPMapping : Type := String → Option ProtoMap

/-- The initial (and post-`ReleaseAll`) global table: empty. -/
def emptyMap : IPMapping := fun _ => none

/-- Go map store `globalMap[k] = v`. -/
def IPMapping.set (st : IPMapping) (k : String) (v : ProtoMap) : IPMapping :=
  fun x => if x = k then some v else st x

/-- The error values the allocator can return:
`ErrUnknownProtocol`, `ErrAllPortsAllocated`, `ErrPortAlreadyAllocated{ip, port}`. -/
inductive Err where
  | unknownProtocol : Err
  | allPortsAllocated : Err
  | portAlreadyAllocated (ip : String) (port : Int) : Err
deriving DecidableEq

/-- `if ip == nil { ip = defaultIP }; ipstr := ip.String()` — a `nil` IP is
normalized to `"0.0.0.0"`. IPs are modeled by their string form. -/
def ipKey (ip : Option String) : String := ip.getD "0.0.0.0"

/-- `GetPortRange` returns the two globals (here: the two parameters). -/
def GetPortRange (beginPortRange endPortRange : Int) : Int × Int :=
  (beginPortRange, endPortRange)

/-- One step of the `findPort` loop body: `port++; if port > end { port = start }`. -/
def nextPort (b e port : Int) : Int := if port + 1 > e then b else port + 1

/-- The scan of `findPort`: starting just after `port`, try `fuel` candidates,
returning the first one absent from `p`.  `fuel` is the Go loop's iteration
count `end - start + 1`. -/
def findPortLoop (b e : Int) (p : Finset Int) : Int → Nat → Option Int
  | _, 0 => none
  | port, fuel + 1 =>
    if nextPort b e port ∈ p then findPortLoop b e p (nextPort b e port) fuel
    else some (nextPort b e port)

/-- `(pm *portMap) findPort()`: scan the whole range once starting after
`pm.last`; on success insert the found port and move the cursor to it, on
exhaustion return `ErrAllPortsAllocated` (modeled as `none`) leaving `pm`
unchanged. -/
def findPort (b e : Int) (pm : PortMap) : Option Int × PortMap :=
  match findPortLoop (GetPortRange b e).1 (GetPortRange b e).2 pm.p pm.last
      ((GetPortRange b e).2 - (GetPortRange b e).1 + 1).toNat with
  | some q => (some q, { p := insert q pm.p, last := q })
  | none => (none, pm)

/-- The body of `RequestPort` after protocol validation and lazy creation of
the IP's protocol map: `st1` is the table with `ipstr`'s entry `protomap`
already present.  A specific positive port is checked against the port set; a
non-positive port goes through the round-robin `findPort`. -/
def requestCore (b e : Int) (st1 : IPMapping) (ipstr : String) (protomap : ProtoMap)
    (proto : String) (port : Int) : (Int × Option Err) × IPMapping :=
  if 0 < port then
    if port ∈ (pmOfProto protomap proto).p then
      ((0, some (Err.portAlreadyAllocated ipstr port)), st1)
    else
      ((port, none),
        st1.set ipstr (protomap.set proto
          { p := insert port (pmOfProto protomap proto).p
            last := (pmOfProto protomap proto).last }))
  else
    match (findPort b e (pmOfProto protomap proto)).1 with
    | some q =>
      ((q, none),
        st1.set ipstr (protomap.set proto (findPort b e (pmOfProto protomap proto)).2))
    | none =>
      ((0, some Err.allPortsAllocated),
        st1.set ipstr (protomap.set proto (findPort b e (pmOfProto protomap proto)).2))

/-- `RequestPort(ip, proto, port)`: validate the protocol, normalize the IP,
lazily create the protocol map for a first-seen IP, then run `requestCore`.
Returns the Go pair `(int, error)` together with the new global table. -/
def RequestPort (b e : Int) (st : IPMapping) (ip : Option String) (proto : String)
    (port : Int) : (Int × Option Err) × IPMapping :=
  if proto ≠ "tcp" ∧ proto ≠ "udp" then ((0, some Err.unknownProtocol), st)
  else
    match st (ipKey ip) with
    | some protomap => requestCore b e st (ipKey ip) protomap proto port
    | none =>
      requestCore b e (st.set (ipKey ip) (newProtoMap e)) (ipKey ip)
        (newProtoMap e) proto port

/-- `ReleasePort(ip, proto, port)`: a never-seen IP is a silent no-op; for a
known IP the code runs `delete(protomap[proto].p, port)`.  When `proto` is not
a key of the protocol map, `protomap[proto]` is the nil `*portMap` and the
field access `.p` is a runtime nil-pointer dereference; that Go panic is
modeled as `none`.  A normal return (always with a nil error) is `some` of the
new table. -/
def ReleasePort (st : IPMapping) (ip : Option String) (proto : String) (port : Int) :
    Option IPMapping :=
  match st (ipKey ip) with
  | none => some st
  | some protomap =>
    match protomap.get proto with
    | none => none
    | some pm =>
      some (st.set (ipKey ip) (protomap.set proto { p := pm.p.erase port, last := pm.last }))

/-- `ReleaseAll`: replace the whole table with an empty one; always returns a
nil error. -/
def ReleaseAll (_st : IPMapping) : Option Err × IPMapping := (none, emptyMap)

/-- Drop leading blanks and tabs, as `fmt.Fscanf`'s `%d` verb does before a
number and as the `"\t"` directive does between the two numbers. -/
def skipWS : List Char → List Char
  | [] => []
  | c :: cs => if c = ' ' ∨ c = '\t' then skipWS cs else c :: cs

/-- Read a non-empty run of decimal digits as a natural number. -/
def parseDigits (cs : List Char) : Option (Nat × List Char) :=
  if (cs.takeWhile Char.isDigit) = [] then none
  else
    some ((cs.takeWhile Char.isDigit).foldl (fun n c => 10 * n + (c.toNat - '0'.toNat)) 0,
      cs.dropWhile Char.isDigit)

/-- Read one (possibly negative) decimal integer, the `%d` verb. -/
def parseInt (cs : List Char) : Option (Int × List Char) :=
  match cs with
  | '-' :: rest => (parseDigits rest).map (fun r => (-(r.1 : Int), r.2))
  | _ => (parseDigits cs).map (fun r => ((r.1 : Int), r.2))

/-- `fmt.Fscanf(line, "%d\t%d", &start, &end)` succeeding with `n = 2` and a
nil error: two whitespace-separated integers read from the front of the line
(content after the second integer is not examined). -/
def scanTwoInts (s : String) : Option (Int × Int) :=
  match parseInt (skipWS s.data) with
  | none => none
  | some (a, r1) =>
    match parseInt (skipWS r1) with
    | none => none
    | some (bval, _) => some (a, bval)

/-- The `init` function: `file` is the content of
`/proc/sys/net/ipv4/ip_local_port_range`, `none` when reading it failed.  Any
failure (missing file or failed scan) keeps the built-in defaults and is only
logged (logging has no observable effect here); a successful scan adopts both
bounds.  The function is total: no failure escapes to the caller. -/
def initPortRange (file : Option String) : Int × Int :=
  match file with
  | none => (DefaultPortRangeStart, DefaultPortRangeEnd)
  | some line =>
    match scanTwoInts line with
    | none => (DefaultPortRangeStart, DefaultPortRangeEnd)
    | some r => r

/-- View of the table as the `portMap` the request path would operate on for
`(ipstr, proto)`: the stored one, or a fresh `newPortMap` when the IP is
absent (which is exactly what lazy creation would install). -/
def pmAt (e : Int) (st : IPMapping) (ipstr proto : String) : PortMap :=
  match st ipstr with
  | some m => pmOfProto m proto
  | none => newPortMap e

/-- Iterating `nextPort` (used to reason about the cyclic scan order). -/
def iterNext (b e : Int) : Nat → Int → Int
  | 0, x => x
  | k + 1, x => iterNext b e k (nextPort b e x)

/-- The table after `i` successive any-port (`port = 0`) requests for the same
ip and protocol, starting from the empty table. -/
def anyN (b e : Int) (ip : Option String) (proto : String) : Nat → IPMapping
  | 0 => emptyMap
  | i + 1 => (RequestPort b e (anyN b e ip proto i) ip proto 0).2

/-- First any-port request in the `[49153, 49154]` scenario of the spec. -/
def c3call1 : (Int × Option Err) × IPMapping :=
  RequestPort 49153 49154 emptyMap (some "10.0.0.1") "tcp" 0

/-- Second any-port request in the `[49153, 49154]` scenario. -/
def c3call2 : (Int × Option Err) × IPMapping :=
  RequestPort 49153 49154 c3call1.2 (some "10.0.0.1") "tcp" 0

/-- Third any-port request in the `[49153, 49154]` scenario. -/
def c3call3 : (Int × Option Err) × IPMapping :=
  RequestPort 49153 49154 c3call2.2 (some "10.0.0.1") "tcp" 0

/-- Table state used in the reset scenario: one specific port allocated. -/
def c9st : IPMapping := (RequestPort 49153 65535 emptyMap (some "10.0.0.1") "tcp" 80).2

/-! ## Theorems -/

/-- For a validated protocol, `RequestPort` reduces to `requestCore` after the
lazy get-or-create of the IP's protocol map. -/
theorem requestPort_valid_unfold (b e : Int) (st : IPMapping) (ip : Option String)
    (proto : String) (port : Int) (hp : proto = "tcp" ∨ proto = "udp") :
    RequestPort b e st ip proto port =
      match st (ipKey ip) with
      | some protomap => requestCore b e st (ipKey ip) protomap proto port
      | none =>
        requestCore b e (st.set (ipKey ip) (newProtoMap e)) (ipKey ip)
          (newProtoMap e) proto port := by
  unfold RequestPort
  rw [if_neg (by
    rcases hp with h | h <;> subst h <;>
      first
        | exact fun hc => hc.1 rfl
        | exact fun hc => hc.2 rfl)]

/-- Reading back the protocol's port map after writing it. -/
theorem pmOfProto_set_same (m : ProtoMap) (proto : String) (pm : PortMap)
    (hp : proto = "tcp" ∨ proto = "udp") :
    pmOfProto (m.set proto pm) proto = pm := by
  rcases hp with h | h <;> subst h <;> rfl

/-- Both protocols of a fresh protocol map hold a fresh port map. -/
theorem pmOfProto_newProtoMap (e : Int) (proto : String) :
    pmOfProto (newProtoMap e) proto = newPortMap e := by
  unfold pmOfProto newProtoMap
  split <;> rfl

/-- Writing back an unchanged protocol's port map is the identity. -/
theorem set_pmOfProto_self (m : ProtoMap) (proto : String)
    (hp : proto = "tcp" ∨ proto = "udp") :
    m.set proto (pmOfProto m proto) = m := by
  rcases hp with h | h <;> subst h <;> rfl

/-- The port-map view of a table right after storing a protocol map. -/
theorem pmAt_set (e : Int) (st : IPMapping) (ipstr : String) (m : ProtoMap)
    (proto : String) :
    pmAt e (st.set ipstr m) ipstr proto = pmOfProto m proto := by
  unfold pmAt IPMapping.set
  rw [if_pos rfl]

/-- Specific-port branch of `requestCore` when the port is free. -/
theorem requestCore_free {b e : Int} {st1 : IPMapping} {ipstr : String}
    {protomap : ProtoMap} {proto : String} {port : Int}
    (hpos : 0 < port) (hfree : port ∉ (pmOfProto protomap proto).p) :
    requestCore b e st1 ipstr protomap proto port =
      ((port, none),
        st1.set ipstr (protomap.set proto
          { p := insert port (pmOfProto protomap proto).p
            last := (pmOfProto protomap proto).last })) := by
  unfold requestCore
  rw [if_pos hpos, if_neg hfree]

/-- Specific-port branch of `requestCore` when the port is taken. -/
theorem requestCore_taken {b e : Int} {st1 : IPMapping} {ipstr : String}
    {protomap : ProtoMap} {proto : String} {port : Int}
    (hpos : 0 < port) (hmem : port ∈ (pmOfProto protomap proto).p) :
    requestCore b e st1 ipstr protomap proto port =
      ((0, some (Err.portAlreadyAllocated ipstr port)), st1) := by
  unfold requestCore
  rw [if_pos hpos, if_pos hmem]

/-- The loop step stays inside `[b, e]` whenever it starts there. -/
theorem nextPort_mem {b e port : Int} (hbe : b ≤ e) (h1 : b ≤ port) (h2 : port ≤ e) :
    b ≤ nextPort b e port ∧ nextPort b e port ≤ e := by
  unfold nextPort
  split <;> omega

/-- A port returned by the scan is free, and lies in `[b, e]` when the scan
starts in `[b, e]`. -/
theorem findPortLoop_some_spec {b e : Int} {p : Finset Int} {fuel : Nat} {port q : Int}
    (h : findPortLoop b e p port fuel = some q) :
    q ∉ p ∧ (b ≤ e → b ≤ port → port ≤ e → b ≤ q ∧ q ≤ e) := by
  induction fuel generalizing port with
  | zero => simp [findPortLoop] at h
  | succ fuel ih =>
    rw [findPortLoop] at h
    by_cases hmem : nextPort b e port ∈ p
    · rw [if_pos hmem] at h
      obtain ⟨h1, h2⟩ := ih h
      exact ⟨h1, fun hbe hb hp =>
        h2 hbe (nextPort_mem hbe hb hp).1 (nextPort_mem hbe hb hp).2⟩
    · rw [if_neg hmem] at h
      injection h with h
      subst h
      exact ⟨hmem, fun hbe hb hp => nextPort_mem hbe hb hp⟩

/-- When every port of `[b, e]` is allocated, the scan fails. -/
theorem findPortLoop_none_of_full {b e : Int} {p : Finset Int}
    (hfull : ∀ x, b ≤ x → x ≤ e → x ∈ p) (hbe : b ≤ e) :
    ∀ (fuel : Nat) (port : Int), b ≤ port → port ≤ e →
      findPortLoop b e p port fuel = none := by
  intro fuel
  induction fuel with
  | zero => intro port _ _; rfl
  | succ fuel ih =>
    intro port hb hp
    have hm := nextPort_mem hbe hb hp
    rw [findPortLoop, if_pos (hfull _ hm.1 hm.2)]
    exact ih _ hm.1 hm.2

/-- Absorbing a reduction mod `n` inside a sum before taking the remainder. -/
theorem emod_absorb (a x n : Int) : (a + x % n) % n = (a + x) % n := by
  conv_rhs => rw [← Int.ediv_add_emod x n]
  rw [show a + (n * (x / n) + x % n) = a + x % n + n * (x / n) by ring,
    Int.add_mul_emod_self_left]

/-- Iterating the wrap-around step `k` times moves the offset from `b` by `k`,
modulo the range size. -/
theorem iterNext_eq {b e : Int} (hbe : b ≤ e) :
    ∀ (k : Nat) (m : Int),
      iterNext b e k (b + m % (e - b + 1)) = b + (m + k) % (e - b + 1) := by
  intro k
  induction k with
  | zero => intro m; simp [iterNext]
  | succ k ih =>
    intro m
    have hn : 0 < e - b + 1 := by omega
    have h0 : 0 ≤ m % (e - b + 1) := Int.emod_nonneg m (by omega)
    have h1 : m % (e - b + 1) < e - b + 1 := Int.emod_lt_of_pos m hn
    have hnext : nextPort b e (b + m % (e - b + 1)) = b + (m + 1) % (e - b + 1) := by
      unfold nextPort
      by_cases hc : m % (e - b + 1) = e - b
      · rw [if_pos (by omega)]
        have hz : (m + 1) % (e - b + 1) = 0 := by
          rw [show m + 1 = 1 + m by ring, ← emod_absorb 1 m (e - b + 1), hc,
            show (1 : Int) + (e - b) = e - b + 1 by ring, Int.emod_self]
        rw [hz, add_zero]
      · rw [if_neg (by omega)]
        have hs : (m + 1) % (e - b + 1) = m % (e - b + 1) + 1 := by
          rw [show m + 1 = 1 + m by ring, ← emod_absorb 1 m (e - b + 1),
            show (1 : Int) + m % (e - b + 1) = m % (e - b + 1) + 1 by ring]
          exact Int.emod_eq_of_lt (by omega) (by omega)
        omega
    show iterNext b e k (nextPort b e (b + m % (e - b + 1))) = _
    rw [hnext, ih (m + 1)]
    have hc : m + 1 + (k : Int) = m + ((k + 1 : Nat) : Int) := by push_cast; ring
    rw [hc]

/-- If some free port is hit after `k ≤ fuel` steps of the wrap-around walk,
the scan succeeds. -/
theorem findPortLoop_isSome_of_hit {b e : Int} {p : Finset Int} {q : Int} (hq : q ∉ p) :
    ∀ (k fuel : Nat) (port : Int), 1 ≤ k → k ≤ fuel → iterNext b e k port = q →
      (findPortLoop b e p port fuel).isSome = true := by
  intro k
  induction k with
  | zero => intro fuel port h1 _ _; omega
  | succ k ih =>
    intro fuel port _ hk hit
    obtain ⟨fuel', rfl⟩ : ∃ f, fuel = f + 1 := ⟨fuel - 1, by omega⟩
    rw [iterNext] at hit
    rw [findPortLoop]
    by_cases hmem : nextPort b e port ∈ p
    · rw [if_pos hmem]
      rcases Nat.eq_zero_or_pos k with hk0 | hk1
      · subst hk0
        rw [iterNext] at hit
        exact absurd (hit ▸ hmem) hq
      · exact ih fuel' (nextPort b e port) hk1 (by omega) hit
    · rw [if_neg hmem]
      rfl

/-- Any port of `[b, e]` is hit by the wrap-around walk within
`e - b + 1` steps from any starting point inside the range. -/
theorem exists_iterNext_hit {b e port q : Int} (hbe : b ≤ e)
    (hp1 : b ≤ port) (hp2 : port ≤ e) (hq1 : b ≤ q) (hq2 : q ≤ e) :
    ∃ k : Nat, 1 ≤ k ∧ (k : Int) ≤ e - b + 1 ∧ iterNext b e k port = q := by
  have hnpos : 0 < e - b + 1 := by omega
  have hmod : 0 ≤ (q - port - 1) % (e - b + 1) := Int.emod_nonneg _ (by omega)
  have hlt : (q - port - 1) % (e - b + 1) < e - b + 1 := Int.emod_lt_of_pos _ hnpos
  refine ⟨((q - port - 1) % (e - b + 1)).toNat + 1, by omega, by push_cast; omega, ?_⟩
  have hcast : ((((q - port - 1) % (e - b + 1)).toNat + 1 : Nat) : Int) =
      (q - port - 1) % (e - b + 1) + 1 := by push_cast; omega
  have key := iterNext_eq hbe (((q - port - 1) % (e - b + 1)).toNat + 1) (port - b)
  rw [show b + (port - b) % (e - b + 1) = port by
      rw [Int.emod_eq_of_lt (by omega) (by omega)]; ring] at key
  rw [key, hcast,
    show port - b + ((q - port - 1) % (e - b + 1) + 1) =
      port - b + 1 + (q - port - 1) % (e - b + 1) by ring,
    emod_absorb (port - b + 1) (q - port - 1) (e - b + 1),
    show port - b + 1 + (q - port - 1) = q - b by ring,
    Int.emod_eq_of_lt (by omega) (by omega)]
  ring

/-- If a free port exists in `[b, e]` and the scan starts inside `[b, e]`,
the full one-lap scan finds a free port. -/
theorem findPortLoop_full_isSome {b e : Int} {p : Finset Int} {port q : Int}
    (hbe : b ≤ e) (hp1 : b ≤ port) (hp2 : port ≤ e)
    (hq1 : b ≤ q) (hq2 : q ≤ e) (hq : q ∉ p) :
    (findPortLoop b e p port (e - b + 1).toNat).isSome = true := by
  obtain ⟨k, hk1, hk2, hit⟩ := exists_iterNext_hit hbe hp1 hp2 hq1 hq2
  exact findPortLoop_isSome_of_hit hq k _ port hk1 (by omega) hit

/-- `findPort` succeeds whenever some port of the range is free and the cursor
is inside the range; the found port is free, in range, gets inserted, and the
cursor moves onto it. -/
theorem findPort_success {b e : Int} {pm : PortMap} (hbe : b ≤ e)
    (hl1 : b ≤ pm.last) (hl2 : pm.last ≤ e)
    {q : Int} (hq1 : b ≤ q) (hq2 : q ≤ e) (hq : q ∉ pm.p) :
    ∃ r, (findPort b e pm).1 = some r ∧ r ∉ pm.p ∧ b ≤ r ∧ r ≤ e ∧
      (findPort b e pm).2 = { p := insert r pm.p, last := r } := by
  have hs := findPortLoop_full_isSome hbe hl1 hl2 hq1 hq2 hq
  unfold findPort GetPortRange
  unfold GetPortRange at hs
  cases hr : findPortLoop b e pm.p pm.last (e - b + 1).toNat with
  | none => rw [hr] at hs; simp at hs
  | some r =>
    obtain ⟨hfree, hrange⟩ := findPortLoop_some_spec hr
    exact ⟨r, rfl, hfree, (hrange hbe hl1 hl2).1, (hrange hbe hl1 hl2).2, rfl⟩

/-- `findPort` fails (all ports allocated) when the whole range is taken and
the cursor is inside the range, leaving the port map untouched. -/
theorem findPort_exhausted {b e : Int} {pm : PortMap} (hbe : b ≤ e)
    (hl1 : b ≤ pm.last) (hl2 : pm.last ≤ e)
    (hfull : ∀ x, b ≤ x → x ≤ e → x ∈ pm.p) :
    findPort b e pm = (none, pm) := by
  have h := findPortLoop_none_of_full hfull hbe (e - b + 1).toNat pm.last hl1 hl2
  unfold findPort GetPortRange
  rw [h]

/-- Whenever the scan fails, `findPort` returns its port map unchanged. -/
theorem findPort_none_state {b e : Int} {pm : PortMap}
    (h : (findPort b e pm).1 = none) : (findPort b e pm).2 = pm := by
  unfold findPort GetPortRange at h ⊢
  cases hr : findPortLoop b e pm.p pm.last (e - b + 1).toNat with
  | none => rfl
  | some r => rw [hr] at h; simp at h

/-- C6: the round-robin cursor invariant.  A fresh Port Set has its cursor at
the range's upper bound; a failed search leaves the Port Set (cursor included)
exactly as it was; and a successful search leaves the cursor on the returned
port, inside `[b, e]`, provided it starts from a cursor inside the range. -/
theorem cursor_invariant_spec (b e : Int) (pm : PortMap) :
    (newPortMap e).last = e ∧
    ((findPort b e pm).1 = none → (findPort b e pm).2 = pm) ∧
    (b ≤ e → b ≤ pm.last → pm.last ≤ e →
      ∀ q, (findPort b e pm).1 = some q →
        (findPort b e pm).2.last = q ∧ b ≤ q ∧ q ≤ e) := by
  refine ⟨rfl, findPort_none_state, fun hbe hl1 hl2 q hq => ?_⟩
  unfold findPort GetPortRange at hq ⊢
  cases hr : findPortLoop b e pm.p pm.last (e - b + 1).toNat with
  | none => rw [hr] at hq; simp at hq
  | some r =>
    rw [hr] at hq
    injection hq with hq
    subst hq
    obtain ⟨_, hrange⟩ := findPortLoop_some_spec hr
    exact ⟨rfl, (hrange hbe hl1 hl2).1, (hrange hbe hl1 hl2).2⟩

/-- Witness for C6 at a concrete input: range `[1, 2]`, fresh Port Set. -/
theorem cursor_invariant_spec_witness :
    (newPortMap 2).last = 2 ∧
    ((findPort 1 2 (newPortMap 2)).1 = none → (findPort 1 2 (newPortMap 2)).2 = newPortMap 2) ∧
    ((1 : Int) ≤ 2 → (1 : Int) ≤ (newPortMap 2).last → (newPortMap 2).last ≤ 2 →
      ∀ q, (findPort 1 2 (newPortMap 2)).1 = some q →
        (findPort 1 2 (newPortMap 2)).2.last = q ∧ 1 ≤ q ∧ q ≤ 2) :=
  cursor_invariant_spec 1 2 (newPortMap 2)

/-- `requestCore` ignores the requested port entirely when it is not positive:
both a zero and a negative port run the same round-robin search. -/
theorem requestCore_nonpos {b e : Int} {st1 : IPMapping} {ipstr : String}
    {protomap : ProtoMap} {proto : String} {port port' : Int}
    (h : port ≤ 0) (h' : port' ≤ 0) :
    requestCore b e st1 ipstr protomap proto port =
      requestCore b e st1 ipstr protomap proto port' := by
  unfold requestCore
  rw [if_neg (by omega), if_neg (by omega)]

/-- C5: for every IP address and every port value (including 0), `RequestPort`
with a protocol outside {tcp, udp} fails with the `UnknownProtocol` error and
returns the table completely unchanged (no entry, port set or cursor is
touched: the validation happens before any mutation). -/
theorem requestPort_unknown_protocol (b e : Int) (st : IPMapping) (ip : Option String)
    (proto : String) (port : Int) (h1 : proto ≠ "tcp") (h2 : proto ≠ "udp") :
    RequestPort b e st ip proto port = ((0, some Err.unknownProtocol), st) := by
  unfold RequestPort
  rw [if_pos ⟨h1, h2⟩]

/-- Witness for C5 at a concrete input. -/
theorem requestPort_unknown_protocol_witness :
    RequestPort 49153 65535 emptyMap (some "10.0.0.1") "sctp" 0 =
      ((0, some Err.unknownProtocol), emptyMap) :=
  requestPort_unknown_protocol 49153 65535 emptyMap (some "10.0.0.1") "sctp" 0
    (by decide) (by decide)

/-- C10: `RequestPort` with a negative port behaves exactly like a request with
port 0 — only strictly positive ports take the specific-port path, so a
negative port runs the round-robin search; the interface restriction to
port ≥ 0 is not enforced anywhere. -/
theorem requestPort_negative_eq_zero (b e : Int) (st : IPMapping) (ip : Option String)
    (proto : String) (port : Int) (h : port < 0) :
    RequestPort b e st ip proto port = RequestPort b e st ip proto 0 := by
  unfold RequestPort
  by_cases hc : proto ≠ "tcp" ∧ proto ≠ "udp"
  · rw [if_pos hc, if_pos hc]
  · rw [if_neg hc, if_neg hc]
    cases hst : st (ipKey ip) with
    | none => exact requestCore_nonpos (by omega) (by omega)
    | some protomap => exact requestCore_nonpos (by omega) (by omega)

/-- Witness for C10 at a concrete input. -/
theorem requestPort_negative_eq_zero_witness :
    RequestPort 49153 65535 emptyMap (some "10.0.0.1") "tcp" (-1) =
      RequestPort 49153 65535 emptyMap (some "10.0.0.1") "tcp" 0 :=
  requestPort_negative_eq_zero 49153 65535 emptyMap (some "10.0.0.1") "tcp" (-1)
    (by decide)

/-- C4 (divergence witness): `ReleasePort` does not always complete normally.
After a successful allocation for `10.0.0.1`, releasing with the unrecognized
protocol `"sctp"` dereferences the nil `*portMap` the lookup
`protomap["sctp"]` produced, i.e. the Go code panics (modeled as `none`)
instead of being a silent no-op. -/
theorem releasePort_unknown_proto_panics :
    ReleasePort (RequestPort 49153 65535 emptyMap (some "10.0.0.1") "tcp" 80).2
      (some "10.0.0.1") "sctp" 80 = none := by
  rfl

/-- C3 counterexample: with range `[49153, 49154]` and a fresh table, the first
any-port request returns 49153 (the range start), not 49154 — the cursor
starts at the upper bound, and the very first increment wraps past the end
down to the start. -/
theorem anyPort_first_not_49154 :
    c3call1.1 = (49153, none) ∧ (49153 : Int) ≠ 49154 := by
  decide

/-- C3 (amended): with range `[49153, 49154]` and a fresh table, the first
any-port request returns 49153, the second returns the other port 49154, and
the third fails with `AllPortsAllocated`. -/
theorem anyPort_sequence_49153_49154 :
    c3call1.1 = (49153, none) ∧ c3call2.1 = (49154, none) ∧
      c3call3.1 = (0, some Err.allPortsAllocated) := by
  decide

/-- C7: if range discovery fails for any reason — the source is missing
(`file = none`) or its content does not scan as two integers — the range
reported by `GetPortRange` is the built-in default `[49153, 65535]`; on a
successful scan both discovered bounds are adopted.  `initPortRange` is a
total function: no failure is ever propagated. -/
theorem portRange_discovery_fallback :
    (∀ file : Option String,
      (file = none ∨ ∃ line, file = some line ∧ scanTwoInts line = none) →
        GetPortRange (initPortRange file).1 (initPortRange file).2 =
          (DefaultPortRangeStart, DefaultPortRangeEnd)) ∧
    (∀ (line : String) (s e : Int), scanTwoInts line = some (s, e) →
      GetPortRange (initPortRange (some line)).1 (initPortRange (some line)).2 = (s, e)) := by
  constructor
  · rintro file (rfl | ⟨line, rfl, hscan⟩)
    · rfl
    · simp [initPortRange, hscan, GetPortRange]
  · intro line s e hscan
    simp [initPortRange, hscan, GetPortRange]

/-- Witness for C7: a missing source falls back to the defaults, and the
concrete content `"49152\t61000"` scans successfully and is adopted. -/
theorem portRange_discovery_fallback_witness :
    GetPortRange (initPortRange none).1 (initPortRange none).2 = (49153, 65535) ∧
    scanTwoInts "49152\t61000" = some (49152, 61000) ∧
    GetPortRange (initPortRange (some "49152\t61000")).1
      (initPortRange (some "49152\t61000")).2 = (49152, 61000) :=
  ⟨portRange_discovery_fallback.1 none (Or.inl rfl), by decide,
    portRange_discovery_fallback.2 "49152\t61000" 49152 61000 (by decide)⟩

/-- Result of `requestCore` on a free specific port. -/
theorem requestCore_free_fst {b e : Int} {st1 : IPMapping} {ipstr : String}
    {protomap : ProtoMap} {proto : String} {port : Int}
    (hpos : 0 < port) (hfree : port ∉ (pmOfProto protomap proto).p) :
    (requestCore b e st1 ipstr protomap proto port).1 = (port, none) := by
  rw [requestCore_free hpos hfree]

/-- Table produced by `requestCore` on a free specific port. -/
theorem requestCore_free_snd {b e : Int} {st1 : IPMapping} {ipstr : String}
    {protomap : ProtoMap} {proto : String} {port : Int}
    (hpos : 0 < port) (hfree : port ∉ (pmOfProto protomap proto).p) :
    (requestCore b e st1 ipstr protomap proto port).2 =
      st1.set ipstr (protomap.set proto
        { p := insert port (pmOfProto protomap proto).p
          last := (pmOfProto protomap proto).last }) := by
  rw [requestCore_free hpos hfree]

/-- Result of `requestCore` on a taken specific port. -/
theorem requestCore_taken_fst {b e : Int} {st1 : IPMapping} {ipstr : String}
    {protomap : ProtoMap} {proto : String} {port : Int}
    (hpos : 0 < port) (hmem : port ∈ (pmOfProto protomap proto).p) :
    (requestCore b e st1 ipstr protomap proto port).1 =
      (0, some (Err.portAlreadyAllocated ipstr port)) := by
  rw [requestCore_taken hpos hmem]

/-- Table produced by `requestCore` on a taken specific port: unchanged. -/
theorem requestCore_taken_snd {b e : Int} {st1 : IPMapping} {ipstr : String}
    {protomap : ProtoMap} {proto : String} {port : Int}
    (hpos : 0 < port) (hmem : port ∈ (pmOfProto protomap proto).p) :
    (requestCore b e st1 ipstr protomap proto port).2 = st1 := by
  rw [requestCore_taken hpos hmem]

/-- A specific-port request for a free port succeeds: it returns exactly that
port with a nil error and inserts it, leaving the cursor alone. -/
theorem requestPort_free (b e : Int) (st : IPMapping) (ip : Option String)
    (proto : String) (port : Int) (hp : proto = "tcp" ∨ proto = "udp")
    (hpos : 0 < port) (hfree : port ∉ (pmAt e st (ipKey ip) proto).p) :
    (RequestPort b e st ip proto port).1 = (port, none) ∧
    pmAt e (RequestPort b e st ip proto port).2 (ipKey ip) proto =
      { p := insert port (pmAt e st (ipKey ip) proto).p
        last := (pmAt e st (ipKey ip) proto).last } := by
  rw [requestPort_valid_unfold b e st ip proto port hp]
  cases hst : st (ipKey ip) with
  | none =>
    have hpm : pmAt e st (ipKey ip) proto = newPortMap e := by
      unfold pmAt; rw [hst]
    rw [hpm] at hfree
    have hfree' : port ∉ (pmOfProto (newProtoMap e) proto).p := by
      rw [pmOfProto_newProtoMap]; exact hfree
    constructor
    · rw [requestCore_free_fst hpos hfree']
    · rw [requestCore_free_snd hpos hfree', pmAt_set,
        pmOfProto_set_same _ _ _ hp, pmOfProto_newProtoMap, hpm]
  | some protomap =>
    have hpm : pmAt e st (ipKey ip) proto = pmOfProto protomap proto := by
      unfold pmAt; rw [hst]
    rw [hpm] at hfree
    constructor
    · rw [requestCore_free_fst hpos hfree]
    · rw [requestCore_free_snd hpos hfree, pmAt_set,
        pmOfProto_set_same _ _ _ hp, hpm]

/-- A specific-port request for a taken port fails with `AlreadyAllocated`
carrying the IP string and the port, and changes nothing in the port map. -/
theorem requestPort_taken (b e : Int) (st : IPMapping) (ip : Option String)
    (proto : String) (port : Int) (hp : proto = "tcp" ∨ proto = "udp")
    (hpos : 0 < port) (hmem : port ∈ (pmAt e st (ipKey ip) proto).p) :
    (RequestPort b e st ip proto port).1 =
      (0, some (Err.portAlreadyAllocated (ipKey ip) port)) ∧
    pmAt e (RequestPort b e st ip proto port).2 (ipKey ip) proto =
      pmAt e st (ipKey ip) proto := by
  rw [requestPort_valid_unfold b e st ip proto port hp]
  cases hst : st (ipKey ip) with
  | none =>
    exfalso
    have hpm : pmAt e st (ipKey ip) proto = newPortMap e := by
      unfold pmAt; rw [hst]
    rw [hpm] at hmem
    simp [newPortMap] at hmem
  | some protomap =>
    have hpm : pmAt e st (ipKey ip) proto = pmOfProto protomap proto := by
      unfold pmAt; rw [hst]
    rw [hpm] at hmem
    rw [hpm]
    constructor
    · rw [requestCore_taken_fst hpos hmem]
    · rw [requestCore_taken_snd hpos hmem]
      exact hpm

/-- C1: for every IP, protocol in {tcp, udp} and port > 0: if the port is not
in the Port Set for that (IP, protocol), `RequestPort` inserts it and returns
exactly that port with no error; if it is already present, it fails with the
`AlreadyAllocated` error carrying the IP string and the port, and the Port Set
— its round-robin cursor included — is not touched: no round-robin search runs
and the cursor keeps its previous value in both cases. -/
theorem requestPort_specific_spec (b e : Int) (st : IPMapping) (ip : Option String)
    (proto : String) (port : Int) (hp : proto = "tcp" ∨ proto = "udp")
    (hpos : 0 < port) :
    (port ∉ (pmAt e st (ipKey ip) proto).p →
      (RequestPort b e st ip proto port).1 = (port, none) ∧
      pmAt e (RequestPort b e st ip proto port).2 (ipKey ip) proto =
        { p := insert port (pmAt e st (ipKey ip) proto).p
          last := (pmAt e st (ipKey ip) proto).last }) ∧
    (port ∈ (pmAt e st (ipKey ip) proto).p →
      (RequestPort b e st ip proto port).1 =
        (0, some (Err.portAlreadyAllocated (ipKey ip) port)) ∧
      pmAt e (RequestPort b e st ip proto port).2 (ipKey ip) proto =
        pmAt e st (ipKey ip) proto) :=
  ⟨fun hfree => requestPort_free b e st ip proto port hp hpos hfree,
   fun hmem => requestPort_taken b e st ip proto port hp hpos hmem⟩

/-- Witness for C1 at a concrete input: fresh table, tcp port 80. -/
theorem requestPort_specific_spec_witness :
    (0 : Int) < 80 ∧
    ((80 ∉ (pmAt 65535 emptyMap (ipKey (some "1.2.3.4")) "tcp").p →
      (RequestPort 49153 65535 emptyMap (some "1.2.3.4") "tcp" 80).1 = (80, none) ∧
      pmAt 65535 (RequestPort 49153 65535 emptyMap (some "1.2.3.4") "tcp" 80).2
          (ipKey (some "1.2.3.4")) "tcp" =
        { p := insert 80 (pmAt 65535 emptyMap (ipKey (some "1.2.3.4")) "tcp").p
          last := (pmAt 65535 emptyMap (ipKey (some "1.2.3.4")) "tcp").last }) ∧
    (80 ∈ (pmAt 65535 emptyMap (ipKey (some "1.2.3.4")) "tcp").p →
      (RequestPort 49153 65535 emptyMap (some "1.2.3.4") "tcp" 80).1 =
        (0, some (Err.portAlreadyAllocated (ipKey (some "1.2.3.4")) 80)) ∧
      pmAt 65535 (RequestPort 49153 65535 emptyMap (some "1.2.3.4") "tcp" 80).2
          (ipKey (some "1.2.3.4")) "tcp" =
        pmAt 65535 emptyMap (ipKey (some "1.2.3.4")) "tcp")) :=
  ⟨by decide,
    requestPort_specific_spec 49153 65535 emptyMap (some "1.2.3.4") "tcp" 80
      (Or.inl rfl) (by decide)⟩

/-- Releasing for a never-seen IP returns immediately with a nil error. -/
theorem releasePort_absent (st : IPMapping) (ip : Option String) (proto : String)
    (port : Int) (hst : st (ipKey ip) = none) :
    ReleasePort st ip proto port = some st := by
  unfold ReleasePort
  rw [hst]

/-- Releasing on a known IP with a valid protocol erases the port from that
protocol's Port Set and returns a nil error. -/
theorem releasePort_present (st : IPMapping) (ip : Option String) (proto : String)
    (port : Int) (protomap : ProtoMap) (hst : st (ipKey ip) = some protomap)
    (hp : proto = "tcp" ∨ proto = "udp") :
    ReleasePort st ip proto port =
      some (st.set (ipKey ip) (protomap.set proto
        { p := (pmOfProto protomap proto).p.erase port
          last := (pmOfProto protomap proto).last })) := by
  unfold ReleasePort
  rw [hst]
  rcases hp with h | h <;> subst h <;> rfl

/-- C8: with a valid protocol, releasing a port that is not currently
allocated — in particular for an IP with no table entry at all — returns no
error and leaves the table unchanged; and whenever a release completes, a
subsequent specific-port request for the same (ip, protocol, port) succeeds
again, returning exactly that port. -/
theorem releasePort_noop_and_reuse (b e : Int) (st : IPMapping) (ip : Option String)
    (proto : String) (port : Int) (hp : proto = "tcp" ∨ proto = "udp") :
    (port ∉ (pmAt e st (ipKey ip) proto).p → ReleasePort st ip proto port = some st) ∧
    (∀ st1, ReleasePort st ip proto port = some st1 → 0 < port →
      (RequestPort b e st1 ip proto port).1 = (port, none)) := by
  constructor
  · intro hfree
    cases hst : st (ipKey ip) with
    | none => exact releasePort_absent st ip proto port hst
    | some protomap =>
      have hpm : pmAt e st (ipKey ip) proto = pmOfProto protomap proto := by
        unfold pmAt; rw [hst]
      rw [hpm] at hfree
      rw [releasePort_present st ip proto port protomap hst hp]
      have h1 : ({ p := (pmOfProto protomap proto).p.erase port
                   last := (pmOfProto protomap proto).last } : PortMap) =
          pmOfProto protomap proto := by
        rw [Finset.erase_eq_of_not_mem hfree]
      rw [h1, set_pmOfProto_self protomap proto hp]
      have hset : st.set (ipKey ip) protomap = st := by
        funext x
        unfold IPMapping.set
        by_cases hx : x = ipKey ip
        · subst hx; rw [if_pos rfl, hst]
        · rw [if_neg hx]
      rw [hset]
  · intro st1 hrel hpos
    cases hst : st (ipKey ip) with
    | none =>
      rw [releasePort_absent st ip proto port hst] at hrel
      injection hrel with hrel
      subst hrel
      refine (requestPort_free b e st ip proto port hp hpos ?_).1
      have hpm : pmAt e st (ipKey ip) proto = newPortMap e := by
        unfold pmAt; rw [hst]
      rw [hpm]
      simp [newPortMap]
    | some protomap =>
      rw [releasePort_present st ip proto port protomap hst hp] at hrel
      injection hrel with hrel
      subst hrel
      refine (requestPort_free b e _ ip proto port hp hpos ?_).1
      rw [pmAt_set, pmOfProto_set_same _ _ _ hp]
      exact Finset.not_mem_erase port _

/-- Witness for C8 at a concrete input: fresh table, tcp port 80. -/
theorem releasePort_noop_and_reuse_witness :
    (80 ∉ (pmAt 65535 emptyMap (ipKey (some "10.0.0.1")) "tcp").p →
      ReleasePort emptyMap (some "10.0.0.1") "tcp" 80 = some emptyMap) ∧
    (∀ st1, ReleasePort emptyMap (some "10.0.0.1") "tcp" 80 = some st1 → (0 : Int) < 80 →
      (RequestPort 49153 65535 st1 (some "10.0.0.1") "tcp" 80).1 = (80, none)) :=
  releasePort_noop_and_reuse 49153 65535 emptyMap (some "10.0.0.1") "tcp" 80 (Or.inl rfl)

/-- Any-port requests never fail with `AlreadyAllocated`: the round-robin path
only produces a nil error or `AllPortsAllocated`. -/
theorem requestCore_any_err {b e : Int} {st1 : IPMapping} {ipstr : String}
    {protomap : ProtoMap} {proto : String} {port : Int} (hport : port ≤ 0) :
    (requestCore b e st1 ipstr protomap proto port).1.2 = none ∨
    (requestCore b e st1 ipstr protomap proto port).1.2 = some Err.allPortsAllocated := by
  unfold requestCore
  rw [if_neg (by omega)]
  cases hf : (findPort b e (pmOfProto protomap proto)).1 with
  | none => right; rfl
  | some q => left; rfl

/-- Lifting of `requestCore_any_err` to `RequestPort`. -/
theorem requestPort_any_err (b e : Int) (st : IPMapping) (ip : Option String)
    (proto : String) (port : Int) (hp : proto = "tcp" ∨ proto = "udp")
    (hport : port ≤ 0) :
    (RequestPort b e st ip proto port).1.2 = none ∨
    (RequestPort b e st ip proto port).1.2 = some Err.allPortsAllocated := by
  rw [requestPort_valid_unfold b e st ip proto port hp]
  cases hst : st (ipKey ip) with
  | none => exact requestCore_any_err hport
  | some protomap => exact requestCore_any_err hport

/-- Any-port branch of `requestCore` when the scan finds a port. -/
theorem requestCore_any_found {b e : Int} {st1 : IPMapping} {ipstr : String}
    {protomap : ProtoMap} {proto : String} {port q : Int}
    (hport : port ≤ 0) (hf : (findPort b e (pmOfProto protomap proto)).1 = some q) :
    requestCore b e st1 ipstr protomap proto port =
      ((q, none),
        st1.set ipstr (protomap.set proto (findPort b e (pmOfProto protomap proto)).2)) := by
  unfold requestCore
  rw [if_neg (by omega), hf]

/-- Any-port branch of `requestCore` when the scan is exhausted. -/
theorem requestCore_any_none {b e : Int} {st1 : IPMapping} {ipstr : String}
    {protomap : ProtoMap} {proto : String} {port : Int}
    (hport : port ≤ 0) (hf : (findPort b e (pmOfProto protomap proto)).1 = none) :
    requestCore b e st1 ipstr protomap proto port =
      ((0, some Err.allPortsAllocated),
        st1.set ipstr (protomap.set proto (findPort b e (pmOfProto protomap proto)).2)) := by
  unfold requestCore
  rw [if_neg (by omega), hf]

/-- Result component of `requestCore_any_found`. -/
theorem requestCore_any_found_fst {b e : Int} {st1 : IPMapping} {ipstr : String}
    {protomap : ProtoMap} {proto : String} {port q : Int}
    (hport : port ≤ 0) (hf : (findPort b e (pmOfProto protomap proto)).1 = some q) :
    (requestCore b e st1 ipstr protomap proto port).1 = (q, none) := by
  rw [requestCore_any_found hport hf]

/-- Table component of `requestCore_any_found`. -/
theorem requestCore_any_found_snd {b e : Int} {st1 : IPMapping} {ipstr : String}
    {protomap : ProtoMap} {proto : String} {port q : Int}
    (hport : port ≤ 0) (hf : (findPort b e (pmOfProto protomap proto)).1 = some q) :
    (requestCore b e st1 ipstr protomap proto port).2 =
      st1.set ipstr (protomap.set proto (findPort b e (pmOfProto protomap proto)).2) := by
  rw [requestCore_any_found hport hf]

/-- Result component of `requestCore_any_none`. -/
theorem requestCore_any_none_fst {b e : Int} {st1 : IPMapping} {ipstr : String}
    {protomap : ProtoMap} {proto : String} {port : Int}
    (hport : port ≤ 0) (hf : (findPort b e (pmOfProto protomap proto)).1 = none) :
    (requestCore b e st1 ipstr protomap proto port).1 =
      (0, some Err.allPortsAllocated) := by
  rw [requestCore_any_none hport hf]

/-- Table component of `requestCore_any_none`. -/
theorem requestCore_any_none_snd {b e : Int} {st1 : IPMapping} {ipstr : String}
    {protomap : ProtoMap} {proto : String} {port : Int}
    (hport : port ≤ 0) (hf : (findPort b e (pmOfProto protomap proto)).1 = none) :
    (requestCore b e st1 ipstr protomap proto port).2 =
      st1.set ipstr (protomap.set proto (findPort b e (pmOfProto protomap proto)).2) := by
  rw [requestCore_any_none hport hf]

/-- An any-port request that finds a free port returns it with a nil error,
and the table's port map for the pair becomes `findPort`'s updated one. -/
theorem requestPort_any_found (b e : Int) (st : IPMapping) (ip : Option String)
    (proto : String) (port q : Int) (hp : proto = "tcp" ∨ proto = "udp")
    (hport : port ≤ 0)
    (hf : (findPort b e (pmAt e st (ipKey ip) proto)).1 = some q) :
    (RequestPort b e st ip proto port).1 = (q, none) ∧
    pmAt e (RequestPort b e st ip proto port).2 (ipKey ip) proto =
      (findPort b e (pmAt e st (ipKey ip) proto)).2 := by
  rw [requestPort_valid_unfold b e st ip proto port hp]
  cases hst : st (ipKey ip) with
  | none =>
    have hpm : pmAt e st (ipKey ip) proto = newPortMap e := by
      unfold pmAt; rw [hst]
    rw [hpm] at hf
    have hf' : (findPort b e (pmOfProto (newProtoMap e) proto)).1 = some q := by
      rw [pmOfProto_newProtoMap]; exact hf
    constructor
    · rw [requestCore_any_found_fst hport hf']
    · rw [requestCore_any_found_snd hport hf', pmAt_set,
        pmOfProto_set_same _ _ _ hp, pmOfProto_newProtoMap, hpm]
  | some protomap =>
    have hpm : pmAt e st (ipKey ip) proto = pmOfProto protomap proto := by
      unfold pmAt; rw [hst]
    rw [hpm] at hf
    constructor
    · rw [requestCore_any_found_fst hport hf]
    · rw [requestCore_any_found_snd hport hf, pmAt_set,
        pmOfProto_set_same _ _ _ hp, hpm]

/-- An any-port request on an exhausted range fails with `AllPortsAllocated`. -/
theorem requestPort_any_none (b e : Int) (st : IPMapping) (ip : Option String)
    (proto : String) (port : Int) (hp : proto = "tcp" ∨ proto = "udp")
    (hport : port ≤ 0)
    (hf : (findPort b e (pmAt e st (ipKey ip) proto)).1 = none) :
    (RequestPort b e st ip proto port).1 = (0, some Err.allPortsAllocated) := by
  rw [requestPort_valid_unfold b e st ip proto port hp]
  cases hst : st (ipKey ip) with
  | none =>
    have hpm : pmAt e st (ipKey ip) proto = newPortMap e := by
      unfold pmAt; rw [hst]
    rw [hpm] at hf
    have hf' : (findPort b e (pmOfProto (newProtoMap e) proto)).1 = none := by
      rw [pmOfProto_newProtoMap]; exact hf
    rw [requestCore_any_none_fst hport hf']
  | some protomap =>
    have hpm : pmAt e st (ipKey ip) proto = pmOfProto protomap proto := by
      unfold pmAt; rw [hst]
    rw [hpm] at hf
    rw [requestCore_any_none_fst hport hf]

/-- Looking up the key just stored. -/
theorem IPMapping.set_self (st : IPMapping) (k : String) (v : ProtoMap) :
    (st.set k v) k = some v := by
  simp [IPMapping.set]

/-- After any request with a valid protocol, the normalized IP has an entry in
the table (the lazy creation installs one if needed). -/
theorem requestCore_key_present {b e : Int} {st1 : IPMapping} {ipstr : String}
    {protomap : ProtoMap} {proto : String} {port : Int} {m0 : ProtoMap}
    (hkey : st1 ipstr = some m0) :
    ∃ m, (requestCore b e st1 ipstr protomap proto port).2 ipstr = some m := by
  unfold requestCore
  by_cases hpos : 0 < port
  · rw [if_pos hpos]
    by_cases hmem : port ∈ (pmOfProto protomap proto).p
    · rw [if_pos hmem]
      exact ⟨m0, hkey⟩
    · rw [if_neg hmem]
      exact ⟨_, IPMapping.set_self st1 ipstr _⟩
  · rw [if_neg hpos]
    cases hf : (findPort b e (pmOfProto protomap proto)).1 with
    | none => exact ⟨_, IPMapping.set_self st1 ipstr _⟩
    | some q => exact ⟨_, IPMapping.set_self st1 ipstr _⟩

/-- Lifting of `requestCore_key_present` to `RequestPort`. -/
theorem requestPort_key_present (b e : Int) (st : IPMapping) (ip : Option String)
    (proto : String) (port : Int) (hp : proto = "tcp" ∨ proto = "udp") :
    ∃ m, (RequestPort b e st ip proto port).2 (ipKey ip) = some m := by
  rw [requestPort_valid_unfold b e st ip proto port hp]
  cases hst : st (ipKey ip) with
  | none => exact requestCore_key_present (IPMapping.set_self st (ipKey ip) (newProtoMap e))
  | some protomap => exact requestCore_key_present hst

/-- C9: `ReleaseAll` never fails and discards the whole table: any request
that just failed with `AlreadyAllocated` succeeds as a specific-port request
after the reset, returning exactly the requested port. -/
theorem releaseAll_clears (b e : Int) (st : IPMapping) (ip : Option String)
    (proto : String) (port : Int) (ipx : String) (px : Int)
    (h : (RequestPort b e st ip proto port).1.2 =
      some (Err.portAlreadyAllocated ipx px)) :
    (ReleaseAll st).1 = none ∧
    (RequestPort b e (ReleaseAll st).2 ip proto port).1 = (port, none) := by
  have hp : proto = "tcp" ∨ proto = "udp" := by
    by_contra hnp
    push_neg at hnp
    rw [requestPort_unknown_protocol b e st ip proto port hnp.1 hnp.2] at h
    simp at h
  have hpos : 0 < port := by
    by_contra hnpos
    push_neg at hnpos
    rcases requestPort_any_err b e st ip proto port hp hnpos with hh | hh <;>
      rw [h] at hh <;> simp at hh
  refine ⟨rfl, ?_⟩
  exact (requestPort_free b e emptyMap ip proto port hp hpos
    (by simp [pmAt, emptyMap, newPortMap])).1

/-- Witness for C9 at a concrete input: port 80 allocated, re-requested (which
fails with `AlreadyAllocated`), then `ReleaseAll`, then requested again. -/
theorem releaseAll_clears_witness :
    (RequestPort 49153 65535 c9st (some "10.0.0.1") "tcp" 80).1.2 =
      some (Err.portAlreadyAllocated "10.0.0.1" 80) ∧
    ((ReleaseAll c9st).1 = none ∧
      (RequestPort 49153 65535 (ReleaseAll c9st).2 (some "10.0.0.1") "tcp" 80).1 =
        (80, none)) :=
  ⟨by decide,
    releaseAll_clears 49153 65535 c9st (some "10.0.0.1") "tcp" 80 "10.0.0.1" 80
      (by decide)⟩

/-- On a Port Set that is not yet full (inside the range) and whose cursor is
in range, `findPort` allocates some free in-range port. -/
theorem pm_step_success {b e : Int} {pm : PortMap} (hbe : b ≤ e)
    (_hsub : pm.p ⊆ Finset.Icc b e) (hcard : pm.p.card < (e - b + 1).toNat)
    (hl1 : b ≤ pm.last) (hl2 : pm.last ≤ e) :
    ∃ r, (findPort b e pm).1 = some r ∧ r ∉ pm.p ∧ b ≤ r ∧ r ≤ e ∧
      (findPort b e pm).2 = { p := insert r pm.p, last := r } := by
  have hIcc : (Finset.Icc b e).card = (e - b + 1).toNat := by
    rw [Int.card_Icc]; omega
  have hnsub : ¬ Finset.Icc b e ⊆ pm.p := by
    intro hsub2
    have hc := Finset.card_le_card hsub2
    omega
  rw [Finset.not_subset] at hnsub
  obtain ⟨q, hqIcc, hqfree⟩ := hnsub
  rw [Finset.mem_Icc] at hqIcc
  exact findPort_success hbe hl1 hl2 hqIcc.1 hqIcc.2 hqfree

/-- Invariant of the any-port allocation sequence from the empty table: after
`i ≤ e - b + 1` calls the Port Set holds exactly `i` ports of `[b, e]` and the
cursor is in range. -/
theorem anyN_state (b e : Int) (ip : Option String) (proto : String)
    (hbe : b ≤ e) (hp : proto = "tcp" ∨ proto = "udp") :
    ∀ i, i ≤ (e - b + 1).toNat →
      (pmAt e (anyN b e ip proto i) (ipKey ip) proto).p ⊆ Finset.Icc b e ∧
      (pmAt e (anyN b e ip proto i) (ipKey ip) proto).p.card = i ∧
      b ≤ (pmAt e (anyN b e ip proto i) (ipKey ip) proto).last ∧
      (pmAt e (anyN b e ip proto i) (ipKey ip) proto).last ≤ e := by
  intro i
  induction i with
  | zero =>
    intro _
    have h0 : pmAt e (anyN b e ip proto 0) (ipKey ip) proto = newPortMap e := rfl
    rw [h0]
    exact ⟨Finset.empty_subset _, Finset.card_empty, hbe, le_refl e⟩
  | succ i ih =>
    intro hi1
    obtain ⟨hsub, hcard, hl1, hl2⟩ := ih (by omega)
    obtain ⟨r, hr1, hrfree, hrb, hre, hr2⟩ :=
      pm_step_success hbe hsub (by omega) hl1 hl2
    have hreq := requestPort_any_found b e (anyN b e ip proto i) ip proto 0 r hp
      (by omega) hr1
    have hPM : pmAt e (anyN b e ip proto (i + 1)) (ipKey ip) proto =
        { p := insert r (pmAt e (anyN b e ip proto i) (ipKey ip) proto).p
          last := r } := by
      show pmAt e (RequestPort b e (anyN b e ip proto i) ip proto 0).2 (ipKey ip) proto = _
      rw [hreq.2, hr2]
    rw [hPM]
    refine ⟨?_, ?_, hrb, hre⟩
    · exact Finset.insert_subset_iff.mpr ⟨Finset.mem_Icc.mpr ⟨hrb, hre⟩, hsub⟩
    · rw [Finset.card_insert_of_not_mem hrfree, hcard]

/-- Each of the first `e - b + 1` any-port calls from the empty table
succeeds. -/
theorem anyN_success (b e : Int) (ip : Option String) (proto : String)
    (hbe : b ≤ e) (hp : proto = "tcp" ∨ proto = "udp") :
    ∀ i, i < (e - b + 1).toNat →
      (RequestPort b e (anyN b e ip proto i) ip proto 0).1.2 = none := by
  intro i hi
  obtain ⟨hsub, hcard, hl1, hl2⟩ := anyN_state b e ip proto hbe hp i (by omega)
  obtain ⟨r, hr1, _, _, _, _⟩ := pm_step_success hbe hsub (by omega) hl1 hl2
  have hreq := requestPort_any_found b e (anyN b e ip proto i) ip proto 0 r hp
    (by omega) hr1
  rw [hreq.1]

/-- After `e - b + 1` successful any-port calls the Port Set is the whole
range. -/
theorem anyN_full (b e : Int) (ip : Option String) (proto : String)
    (hbe : b ≤ e) (hp : proto = "tcp" ∨ proto = "udp") :
    (pmAt e (anyN b e ip proto (e - b + 1).toNat) (ipKey ip) proto).p =
      Finset.Icc b e := by
  obtain ⟨hsub, hcard, _, _⟩ :=
    anyN_state b e ip proto hbe hp (e - b + 1).toNat le_rfl
  apply Finset.eq_of_subset_of_card_le hsub
  have hIcc : (Finset.Icc b e).card = (e - b + 1).toNat := by
    rw [Int.card_Icc]; omega
  omega

/-- C2: for a range `[b, e]` and any (IP, protocol in {tcp, udp}) pair,
starting from the empty table: the first `e - b + 1` any-port requests all
succeed, the next one fails with `AllPortsAllocated`, and after releasing any
one allocated port exactly one subsequent any-port request succeeds — it
returns a port that is free at the time of the call, and the request after it
fails with `AllPortsAllocated` again. -/
theorem requestPort_roundRobin_exhaustion (b e : Int) (ip : Option String)
    (proto : String) (hbe : b ≤ e) (hp : proto = "tcp" ∨ proto = "udp") :
    (∀ i < (e - b + 1).toNat,
      (RequestPort b e (anyN b e ip proto i) ip proto 0).1.2 = none) ∧
    (RequestPort b e (anyN b e ip proto (e - b + 1).toNat) ip proto 0).1 =
      (0, some Err.allPortsAllocated) ∧
    (∀ q ∈ (pmAt e (anyN b e ip proto (e - b + 1).toNat) (ipKey ip) proto).p,
      ∃ st1,
        ReleasePort (anyN b e ip proto (e - b + 1).toNat) ip proto q = some st1 ∧
        (RequestPort b e st1 ip proto 0).1.2 = none ∧
        (RequestPort b e st1 ip proto 0).1.1 ∉ (pmAt e st1 (ipKey ip) proto).p ∧
        (RequestPort b e (RequestPort b e st1 ip proto 0).2 ip proto 0).1 =
          (0, some Err.allPortsAllocated)) := by
  obtain ⟨hsubN, hcardN, hlN1, hlN2⟩ :=
    anyN_state b e ip proto hbe hp (e - b + 1).toNat le_rfl
  have hfullN := anyN_full b e ip proto hbe hp
  refine ⟨anyN_success b e ip proto hbe hp, ?_, ?_⟩
  · have hfp := findPort_exhausted hbe hlN1 hlN2
      (fun x hx1 hx2 => by rw [hfullN]; exact Finset.mem_Icc.mpr ⟨hx1, hx2⟩)
    exact requestPort_any_none b e _ ip proto 0 hp (by omega) (by rw [hfp])
  · intro q hq
    obtain ⟨j, hj⟩ : ∃ j, (e - b + 1).toNat = j + 1 := ⟨(e - b + 1).toNat - 1, by omega⟩
    have hpres : ∃ m, (anyN b e ip proto (e - b + 1).toNat) (ipKey ip) = some m := by
      rw [hj]
      show ∃ m, (RequestPort b e (anyN b e ip proto j) ip proto 0).2 (ipKey ip) = some m
      exact requestPort_key_present b e _ ip proto 0 hp
    obtain ⟨protomap, hkey⟩ := hpres
    have hPMn : pmAt e (anyN b e ip proto (e - b + 1).toNat) (ipKey ip) proto =
        pmOfProto protomap proto := by
      unfold pmAt; rw [hkey]
    have hrel := releasePort_present (anyN b e ip proto (e - b + 1).toNat) ip proto q
      protomap hkey hp
    set stR := (anyN b e ip proto (e - b + 1).toNat).set (ipKey ip)
      (protomap.set proto
        { p := (pmOfProto protomap proto).p.erase q
          last := (pmOfProto protomap proto).last }) with hstR
    have hview : pmAt e stR (ipKey ip) proto =
        { p := (pmOfProto protomap proto).p.erase q
          last := (pmOfProto protomap proto).last } := by
      rw [hstR, pmAt_set, pmOfProto_set_same _ _ _ hp]
    have hqIcc := hq
    rw [hfullN, Finset.mem_Icc] at hqIcc
    rw [hPMn] at hlN1 hlN2
    obtain ⟨r, hr1, hrfree, hrb, hre, hr2⟩ :=
      @findPort_success b e
        { p := (pmOfProto protomap proto).p.erase q
          last := (pmOfProto protomap proto).last }
        hbe hlN1 hlN2 q hqIcc.1 hqIcc.2 (Finset.not_mem_erase q _)
    have hfR : (findPort b e (pmAt e stR (ipKey ip) proto)).1 = some r := by
      rw [hview]; exact hr1
    have hreq := requestPort_any_found b e stR ip proto 0 r hp (by omega) hfR
    refine ⟨stR, hrel, ?_, ?_, ?_⟩
    · rw [hreq.1]
    · rw [hreq.1, hview]
      exact hrfree
    · have hX : (pmOfProto protomap proto).p = Finset.Icc b e := by
        rw [← hPMn]; exact hfullN
      have hrq : r = q := by
        by_contra hne
        exact hrfree (Finset.mem_erase.mpr ⟨hne, by
          rw [hX]; exact Finset.mem_Icc.mpr ⟨hrb, hre⟩⟩)
      subst hrq
      have hqmem : r ∈ Finset.Icc b e := Finset.mem_Icc.mpr ⟨hqIcc.1, hqIcc.2⟩
      have hLp : ({ p := (pmOfProto protomap proto).p.erase r
                    last := (pmOfProto protomap proto).last } : PortMap).p =
          (pmOfProto protomap proto).p.erase r := rfl
      have hst2 : pmAt e (RequestPort b e stR ip proto 0).2 (ipKey ip) proto =
          { p := Finset.Icc b e, last := r } := by
        rw [hreq.2, hview, hr2]
        rw [hLp, hX, Finset.insert_erase hqmem]
      have hfull2 : ∀ x, b ≤ x → x ≤ e →
          x ∈ (pmAt e (RequestPort b e stR ip proto 0).2 (ipKey ip) proto).p := by
        intro x hx1 hx2
        rw [hst2]
        exact Finset.mem_Icc.mpr ⟨hx1, hx2⟩
      have hfp2 := findPort_exhausted hbe
        (by rw [hst2]; exact hqIcc.1) (by rw [hst2]; exact hqIcc.2) hfull2
      exact requestPort_any_none b e _ ip proto 0 hp (by omega) (by rw [hfp2])

/-- Witness for C2 at a concrete input: range `[49153, 49154]`, tcp. -/
theorem requestPort_roundRobin_exhaustion_witness :
    (49153 : Int) ≤ 49154 ∧
    ((∀ i < ((49154 : Int) - 49153 + 1).toNat,
      (RequestPort 49153 49154 (anyN 49153 49154 (some "10.0.0.1") "tcp" i)
        (some "10.0.0.1") "tcp" 0).1.2 = none) ∧
    (RequestPort 49153 49154
        (anyN 49153 49154 (some "10.0.0.1") "tcp" ((49154 : Int) - 49153 + 1).toNat)
        (some "10.0.0.1") "tcp" 0).1 = (0, some Err.allPortsAllocated) ∧
    (∀ q ∈ (pmAt 49154
        (anyN 49153 49154 (some "10.0.0.1") "tcp" ((49154 : Int) - 49153 + 1).toNat)
        (ipKey (some "10.0.0.1")) "tcp").p,
      ∃ st1,
        ReleasePort
          (anyN 49153 49154 (some "10.0.0.1") "tcp" ((49154 : Int) - 49153 + 1).toNat)
          (some "10.0.0.1") "tcp" q = some st1 ∧
        (RequestPort 49153 49154 st1 (some "10.0.0.1") "tcp" 0).1.2 = none ∧
        (RequestPort 49153 49154 st1 (some "10.0.0.1") "tcp" 0).1.1 ∉
          (pmAt 49154 st1 (ipKey (some "10.0.0.1")) "tcp").p ∧
        (RequestPort 49153 49154
          (RequestPort 49153 49154 st1 (some "10.0.0.1") "tcp" 0).2
          (some "10.0.0.1") "tcp" 0).1 = (0, some Err.allPortsAllocated))) :=
  ⟨by decide,
    requestPort_roundRobin_exhaustion 49153 49154 (some "10.0.0.1") "tcp"
      (by decide) (Or.inl rfl)⟩

end PortAllocator
